import Mathlib

/-!
Verification of the daddylive scraper (src/daddylive_scraper.py) through a
shallow embedding.  Strings are modelled as `List Char`.  HTTP fetching is
modelled as an oracle `List Char → Option Page`, where `none` stands for a
network error, a timeout, or a non-success HTTP status (the code's
`requests.exceptions.RequestException` path, which includes
`raise_for_status`).  BeautifulSoup parsing is modelled by structured page
values carrying exactly the information the code queries: the raw page text
(scanned by the regex), iframe `src` attributes in document order, and the
channel divs with their anchors.
-/

/-- Python `\s` as used by the patterns here (ASCII whitespace characters). -/
def isSpaceChar (c : Char) : Bool :=
  c == ' ' || c == '\t' || c == '\n' || c == '\r' || c.toNat == 11 || c.toNat == 12

/-- The character class `[^\s"\']` of the m3u8 regex: any character that is
not whitespace, not a double quote and not a single quote (codepoint 39). -/
def isUrlChar (c : Char) : Bool :=
  !(isSpaceChar c) && c != '"' && c.toNat != 39

/-- `https?://` at the start of `t`.  The greedy `s?` makes the engine try
`https://` before `http://`.  Returns the scheme consumed and the rest. -/
def schemeSplit (t : List Char) : Option (List Char × List Char) :=
  if (("https://").toList).isPrefixOf t then some (("https://").toList, t.drop 8)
  else if (("http://").toList).isPrefixOf t then some (("http://").toList, t.drop 7)
  else none

/-- Index of the last occurrence of `".m3u8"` in `t`: the greedy
`[^\s"\']*` first consumes the whole run of url characters and then
backtracks from the right, so the engine locks onto the last occurrence. -/
def lastM3u8 : List Char → Option Nat
  | [] => none
  | c :: cs =>
    match lastM3u8 cs with
    | some j => some (j + 1)
    | none => if ((".m3u8").toList).isPrefixOf (c :: cs) then some 0 else none

/-- One attempt of `(https?://[^\s"\']*\.m3u8(?:[^\s"\']*?)?)` at the start
of `t`.  After the scheme, the greedy run backtracks to the last `.m3u8`
occurrence inside the run of url characters; the trailing lazy optional
group `(?:[^\s"\']*?)?` matches the empty string because nothing after it
ever forces it to expand, so the match ends right after `.m3u8`. -/
def matchAt (t : List Char) : Option (List Char) :=
  match schemeSplit t with
  | none => none
  | some (sch, rest) =>
    match lastM3u8 (rest.takeWhile isUrlChar) with
    | none => none
    | some j => some (sch ++ (rest.takeWhile isUrlChar).take (j + 5))

/-- `m3u8_pattern.search(player_html).group(1)`: the match at the leftmost
position at which the pattern matches at all. -/
def m3u8Search : List Char → Option (List Char)
  | [] => none
  | c :: cs =>
    match matchAt (c :: cs) with
    | some m => some m
    | none => m3u8Search cs

/-- A fetched player page as the code observes it: the raw text and the
`src` attribute of each iframe element in document order (`none` = an
iframe element without a `src` attribute). -/
structure Page where
  text : List Char
  iframes : List (Option (List Char))
deriving DecidableEq

/-- Python `str.split(sep)` for a one-character separator. -/
def splitOnChar (sep : Char) : List Char → List (List Char)
  | [] => [[]]
  | c :: cs =>
    match splitOnChar sep cs with
    | [] => [[]]
    | h :: t => if c = sep then [] :: h :: t else (c :: h) :: t

/-- `'/'.join(player_page_url.split('/')[:-1]) + '/' + iframe_src.lstrip('/')`. -/
def resolveIframeSrc (playerUrl src : List Char) : List Char :=
  List.intercalate ['/'] ((splitOnChar '/' playerUrl).dropLast) ++
    '/' :: src.dropWhile (fun c => c == '/')

/-- `extract_m3u8_from_player_page`, with fetching as an oracle and a fuel
argument: the Python function has no depth bound, so `none` here means the
recursion has not reached a result within `fuel` unfoldings, while `some r`
means the Python call returns `r` (`some none` = Python `None`,
"not found").  Python truthiness: an iframe whose `src` attribute is
missing, or present but equal to the empty string, fails the
`iframe_tag and iframe_tag.get('src')` test and the function returns
`None`. -/
def extract_m3u8_from_player_page (fetch : List Char → Option Page) :
    Nat → List Char → Option (Option (List Char))
  | 0, _ => none
  | n + 1, url =>
    match fetch url with
    | none => some none
    | some page =>
      match m3u8Search page.text with
      | some m => some (some m)
      | none =>
        match page.iframes.head? with
        | some (some src) =>
          match src.isEmpty, (("http").toList).isPrefixOf src with
          | true, _ => some none
          | false, true => extract_m3u8_from_player_page fetch n src
          | false, false => extract_m3u8_from_player_page fetch n (resolveIframeSrc url src)
        | some none => some none
        | none => some none

/-- An anchor element as the enumerator observes it: its `href` attribute,
the stripped text of its first `h2` descendant when one exists, and its own
stripped text (`get_text(strip=True)`). -/
structure Anchor where
  href : List Char
  h2Text : Option (List Char)
  textContent : List Char
deriving DecidableEq

/-- One matched channel div (a `find_all('div', class_=...)` hit): its
anchor descendants in document order. -/
structure ChannelDiv where
  anchors : List Anchor
deriving DecidableEq

/-- One entry of `channels_data`: keys `'name'` and `'url'`. -/
structure ChannelRecord where
  name : List Char
  url : List Char
deriving DecidableEq

/-- `re.compile(r'player\.php\?id=\d+').search(href)` succeeds: some
position starts with `player.php?id=` followed by at least one digit. -/
def containsPlayerRef : List Char → Bool
  | [] => false
  | c :: cs =>
    ((("player.php?id=").toList).isPrefixOf (c :: cs) &&
      (match (c :: cs).drop 14 with
       | d :: _ => d.isDigit
       | [] => false)) ||
    containsPlayerRef cs

/-- `div.find('a', href=re.compile(r'player\.php\?id=\d+'))`: the first
anchor of the div whose href matches. -/
def findChannelAnchor (d : ChannelDiv) : Option Anchor :=
  d.anchors.find? (fun a => containsPlayerRef a.href)

/-- Channel display name: the text of the `h2` inside the anchor when one
is present, else the anchor's own text. -/
def channelName (a : Anchor) : List Char :=
  match a.h2Text with
  | some t => t
  | none => a.textContent

def defaultListingUrl : List Char := ("https://daddylive.dad/24-7-channels.php").toList

/-- `(channel_name, f"https://daddylive.dad/{player_page_path}")` pairs in
document order; divs without a matching anchor are skipped silently. -/
def channelEntries (doc : List ChannelDiv) : List (List Char × List Char) :=
  doc.filterMap (fun d =>
    (findChannelAnchor d).map (fun a =>
      (channelName a, (("https://daddylive.dad/").toList) ++ a.href)))

/-- The per-channel loop body: a record is kept exactly when the resolver
returns a stream address for the constructed player-page url. -/
def processEntries (resolve : List Char → Option (List Char))
    (entries : List (List Char × List Char)) : List ChannelRecord :=
  entries.filterMap (fun e => (resolve e.2).map (fun m => ChannelRecord.mk e.1 m))

/-- `scrape_daddylive_channels`: a listing fetch failure or an empty div
selection gives the empty run; otherwise each channel is resolved in
document order. -/
def scrape_daddylive_channels (fetchListing : List Char → Option (List ChannelDiv))
    (resolve : List Char → Option (List Char)) (url : List Char) : List ChannelRecord :=
  match fetchListing url with
  | none => []
  | some doc => if doc.isEmpty then [] else processEntries resolve (channelEntries doc)

/-- The resolver plugged into the scraper: fuel exhaustion (divergence in
Python) contributes no record, exactly like "not found". -/
def resolveWithFuel (fetch : List Char → Option Page) (n : Nat) (u : List Char) :
    Option (List Char) :=
  match extract_m3u8_from_player_page fetch n u with
  | some r => r
  | none => none

/-- `create_m3u_playlist` modelled by its write effect: `none` = no file
operation performed (the empty-input early return), `some s` = the target
file is written with content `s`. -/
def create_m3u_playlist (channels : List ChannelRecord) : Option (List Char) :=
  if channels.isEmpty then none
  else some ((("#EXTM3U\n").toList) ++
    (channels.map (fun c =>
      (("#EXTINF:-1 tvg-name=\"").toList) ++ c.name ++ (("\",").toList) ++ c.name ++
      (("\n").toList) ++ c.url ++ (("\n").toList))).flatten)

/-- The spec's stream-address pattern, stated from the spec's words: an
`http` or `https` scheme, followed by non-whitespace/non-quote characters
that contain the literal `.m3u8`. -/
def specStreamMatch (m : List Char) : Prop :=
  ∃ sch body, (sch = ("http://").toList ∨ sch = ("https://").toList) ∧
    m = sch ++ body ∧ (∀ c ∈ body, isUrlChar c = true) ∧
    ∃ q, ((".m3u8").toList).isPrefixOf (body.drop q) = true

/-- The spec pattern has an occurrence starting at position `i` of `s`. -/
def specOccursAt (s : List Char) (i : Nat) : Prop :=
  ∃ m, specStreamMatch m ∧ m.isPrefixOf (s.drop i) = true

/-- The spec's frame selection rule, stated from the spec's words: the
first embedded-frame element that has a source attribute (the code instead
takes the first frame element outright). -/
def firstFrameWithSrc (p : Page) : Option (List Char) :=
  (p.iframes.filterMap id).head?

/-- The resolver call on `url` terminates under fetch oracle `fetch`:
some amount of fuel suffices to reach a result. -/
def resolverTerminates (fetch : List Char → Option Page) (url : List Char) : Prop :=
  ∃ n, extract_m3u8_from_player_page fetch n url ≠ none

/-- The resolver call on `url` runs out of any amount of fuel: the Python
recursion never reaches a result. -/
def exhaustsAllFuel (fetch : List Char → Option Page) (url : List Char) : Prop :=
  ∀ n, extract_m3u8_from_player_page fetch n url = none

/-! Concrete environments used by counterexamples and witnesses. -/

/-- The player-page text of the spec's end-to-end scenario. -/
def c1Text : List Char := ("file: \"https://cdn.example/live/903.m3u8?token=abc\"").toList

def c1PlayerUrl : List Char := ("https://daddylive.dad/player.php?id=903").toList

def c1Fetch : List Char → Option Page :=
  fun u => if u = c1PlayerUrl then some (Page.mk c1Text []) else none

/-- The listing document of the spec's end-to-end scenario: one matched div
holding one anchor with an `h2` heading. -/
def e2eDoc : List ChannelDiv :=
  [ChannelDiv.mk [Anchor.mk (("player.php?id=903").toList)
    (some (("Sample Channel").toList)) (("Sample Channel").toList)]]

def e2eFetchL : List Char → Option (List ChannelDiv) :=
  fun u => if u = defaultListingUrl then some e2eDoc else none

/-- A self-referential frame chain: the page at `cycUrl` has no stream
match and its only iframe points back at `cycUrl` itself. -/
def cycUrl : List Char := ("http://cyc/a").toList

def cycFetch : List Char → Option Page :=
  fun u => if u = cycUrl then some (Page.mk (("no stream here").toList) [some cycUrl]) else none

/-- A page whose first iframe element has no `src` attribute while its
second iframe does, and the second frame's page contains a stream. -/
def c7Url : List Char := ("http://outer/p").toList

def c7Inner : List Char := ("http://inner/q").toList

def c7Page : Page := Page.mk (("no direct stream").toList) [none, some c7Inner]

def c7Fetch : List Char → Option Page :=
  fun u =>
    if u = c7Url then some c7Page
    else if u = c7Inner then some (Page.mk (("file: http://s/a.m3u8 end").toList) []) else none

/-- A listing whose single channel has an empty `h2` heading, and whose
player page does contain a stream address. -/
def c3Doc : List ChannelDiv :=
  [ChannelDiv.mk [Anchor.mk (("player.php?id=7").toList) (some []) (("x").toList)]]

def c3FetchL : List Char → Option (List ChannelDiv) :=
  fun u => if u = defaultListingUrl then some c3Doc else none

def c3PUrl : List Char := ("https://daddylive.dad/player.php?id=7").toList

def c3FetchP : List Char → Option Page :=
  fun u => if u = c3PUrl then some (Page.mk (("go http://s/v.m3u8 ok").toList) []) else none

/-- Oracles that always fail, and a resolver that never finds a stream. -/
def failPageFetch : List Char → Option Page := fun _ => none

def failListingFetch : List Char → Option (List ChannelDiv) := fun _ => none

def noneResolve : List Char → Option (List Char) := fun _ => none

/-- A page with no stream match whose only iframe has a relative source. -/
def c5Url : List Char := ("https://site/x/player.php?id=5").toList

def c5Fetch : List Char → Option Page :=
  fun u => if u = c5Url then some (Page.mk (("nothing").toList) [some (("foo.html").toList)]) else none

/-- A page with no stream match whose only iframe has an absolute source. -/
def c6Url : List Char := ("http://outer6/p").toList

def c6Inner : List Char := ("http://inner6/q").toList

def c6Fetch : List Char → Option Page :=
  fun u => if u = c6Url then some (Page.mk (("nothing here").toList) [some c6Inner]) else none

/-- A page whose text holds a quoted stream address, for the C2 witness. -/
def w2Url : List Char := ("http://w2/p").toList

def w2Page : Page := Page.mk (("x \"https://a.m3u8\" y").toList) []

def w2Fetch : List Char → Option Page :=
  fun u => if u = w2Url then some w2Page else none

/-- A one-channel listing used by the C10 witness. -/
def doc10 : List ChannelDiv :=
  [ChannelDiv.mk [Anchor.mk (("player.php?id=1").toList) none (("N").toList)]]

def fetch10 : List Char → Option (List ChannelDiv) := fun _ => some doc10

/-! Theorems. -/

/-- C1 counterexample: on the end-to-end scenario's player page, whose text
is `file: "https://cdn.example/live/903.m3u8?token=abc"`, the resolver
returns the address truncated right after `.m3u8`, not the full address
with the query string: the trailing lazy group of the regex matches the
empty string. -/
theorem c1_counterexample :
    extract_m3u8_from_player_page c1Fetch 1 c1PlayerUrl =
      some (some (("https://cdn.example/live/903.m3u8").toList)) ∧
    ((("https://cdn.example/live/903.m3u8?token=abc").toList) ==
      (("https://cdn.example/live/903.m3u8").toList)) = false := by
  constructor
  · decide
  · decide

/-- C1 amended: for a player page whose text contains a quoted stream
address with a query string, the resolver returns the address up to and
including `.m3u8`, dropping the query-string portion, so the playlist line
for the end-to-end scenario's channel is
`https://cdn.example/live/903.m3u8`. -/
theorem c1_amended_playlist :
    create_m3u_playlist
        (scrape_daddylive_channels e2eFetchL (resolveWithFuel c1Fetch 1) defaultListingUrl) =
      some (("#EXTM3U\n#EXTINF:-1 tvg-name=\"Sample Channel\",Sample Channel\nhttps://cdn.example/live/903.m3u8\n").toList) := by
  decide

/-- One recursion step of the resolver on the self-referential frame chain
returns to the same url with one unit of fuel spent. -/
theorem cyc_step (n : Nat) :
    extract_m3u8_from_player_page cycFetch (n + 1) cycUrl =
      extract_m3u8_from_player_page cycFetch n cycUrl := rfl

/-- C4: the code imposes no depth bound on frame-following recursion.  On a
page whose only iframe points back at the page itself, the recursion never
reaches a result no matter how much fuel it is given: the Python call
diverges instead of terminating. -/
theorem c4_no_depth_bound : exhaustsAllFuel cycFetch cycUrl := by
  intro n
  induction n with
  | zero => rfl
  | succ n ih => rw [cyc_step, ih]

/-- C9: on an empty sequence of channel records the playlist writer
performs no write: no file is created or overwritten, so the target path is
left unchanged. -/
theorem c9_empty_no_write : create_m3u_playlist [] = none := rfl

/-- C5: when a player page has no direct stream match and its followed
frame's source does not start with `http`, the recursive target is all path
segments of the current player-page address except the last, joined with
`/`, followed by the frame source stripped of leading slashes; in
particular frame source `foo.html` under
`https://site/x/player.php?id=5` resolves to `https://site/x/foo.html`. -/
theorem c5_relative_frame_target (fetch : List Char → Option Page) (n : Nat)
    (url : List Char) (page : Page) (src : List Char)
    (hf : fetch url = some page) (hm : m3u8Search page.text = none)
    (hi : page.iframes.head? = some (some src)) (hne : src.isEmpty = false)
    (hrel : (("http").toList).isPrefixOf src = false) :
    extract_m3u8_from_player_page fetch (n + 1) url =
      extract_m3u8_from_player_page fetch n
        (List.intercalate ['/'] ((splitOnChar '/' url).dropLast) ++
          '/' :: src.dropWhile (fun c => c == '/')) ∧
    resolveIframeSrc (("https://site/x/player.php?id=5").toList) (("foo.html").toList) =
      (("https://site/x/foo.html").toList) := by
  refine ⟨?_, by decide⟩
  simp only [extract_m3u8_from_player_page, hf, hm, hi, hne, hrel]
  rfl

/-- Witness for `c5_relative_frame_target` at a concrete environment. -/
theorem c5_witness :
    extract_m3u8_from_player_page c5Fetch 1 c5Url =
      extract_m3u8_from_player_page c5Fetch 0
        (List.intercalate ['/'] ((splitOnChar '/' c5Url).dropLast) ++
          '/' :: (("foo.html").toList).dropWhile (fun c => c == '/')) ∧
    resolveIframeSrc (("https://site/x/player.php?id=5").toList) (("foo.html").toList) =
      (("https://site/x/foo.html").toList) :=
  c5_relative_frame_target c5Fetch 0 c5Url
    (Page.mk (("nothing").toList) [some (("foo.html").toList)]) (("foo.html").toList)
    (by decide) (by decide) rfl rfl rfl

/-- C6: when a player page has no direct stream match and its followed
frame's source starts with `http`, the resolver's result on the player page
is the resolver applied directly to that frame source (at the next
recursion step). -/
theorem c6_absolute_frame_delegates (fetch : List Char → Option Page) (n : Nat)
    (url : List Char) (page : Page) (src : List Char)
    (hf : fetch url = some page) (hm : m3u8Search page.text = none)
    (hi : page.iframes.head? = some (some src)) (hne : src.isEmpty = false)
    (habs : (("http").toList).isPrefixOf src = true) :
    extract_m3u8_from_player_page fetch (n + 1) url =
      extract_m3u8_from_player_page fetch n src := by
  simp only [extract_m3u8_from_player_page, hf, hm, hi, hne, habs]

/-- Witness for `c6_absolute_frame_delegates` at a concrete environment. -/
theorem c6_witness :
    extract_m3u8_from_player_page c6Fetch 3 c6Url =
      extract_m3u8_from_player_page c6Fetch 2 c6Inner :=
  c6_absolute_frame_delegates c6Fetch 2 c6Url
    (Page.mk (("nothing here").toList) [some c6Inner]) c6Inner
    (by decide) (by decide) rfl rfl (by decide)

/-- C7 counterexample: the code follows the first iframe element outright,
not the first iframe element with a source attribute.  Here the first
iframe has no `src` while the second does and its page holds a stream; the
resolver still answers "not found". -/
theorem c7_counterexample :
    extract_m3u8_from_player_page c7Fetch 5 c7Url = some none ∧
    firstFrameWithSrc c7Page = some c7Inner ∧
    extract_m3u8_from_player_page c7Fetch 4 c7Inner =
      some (some (("http://s/a.m3u8").toList)) := by
  refine ⟨by decide, by decide, by decide⟩

/-- C7 amended: when no direct stream match exists, the frame the resolver
follows is the first embedded-frame element in document order; if that
element has no source attribute, the resolver returns "not found" without
considering any later frame element. -/
theorem c7_first_frame_only (fetch : List Char → Option Page) (n : Nat)
    (url : List Char) (page : Page)
    (hf : fetch url = some page) (hm : m3u8Search page.text = none)
    (hh : page.iframes.head? = some none) :
    extract_m3u8_from_player_page fetch (n + 1) url = some none := by
  simp [extract_m3u8_from_player_page, hf, hm, hh]

/-- Witness for `c7_first_frame_only` at a concrete environment: the later
frame with a source attribute is ignored. -/
theorem c7_witness :
    extract_m3u8_from_player_page c7Fetch 1 c7Url = some none :=
  c7_first_frame_only c7Fetch 0 c7Url c7Page (by decide) (by decide) rfl

/-- C8: a fetch failure on a player or frame page makes the resolver return
"not found" for that url; a channel whose resolution yields no stream is
skipped while the entries before and after it are still processed; and a
fetch failure on the top-level listing page makes the whole run return the
empty result. -/
theorem c8_fetch_failures :
    (∀ (fetch : List Char → Option Page) (n : Nat) (url : List Char),
      fetch url = none → extract_m3u8_from_player_page fetch (n + 1) url = some none) ∧
    (∀ (fetchListing : List Char → Option (List ChannelDiv))
       (resolve : List Char → Option (List Char)) (url : List Char),
      fetchListing url = none → scrape_daddylive_channels fetchListing resolve url = []) ∧
    (∀ (resolve : List Char → Option (List Char)) (pre : List (List Char × List Char))
       (e : List Char × List Char) (post : List (List Char × List Char)),
      resolve e.2 = none →
      processEntries resolve (pre ++ e :: post) =
        processEntries resolve pre ++ processEntries resolve post) := by
  refine ⟨?_, ?_, ?_⟩
  · intro fetch n url h
    simp only [extract_m3u8_from_player_page, h]
  · intro fetchListing resolve url h
    simp only [scrape_daddylive_channels, h]
  · intro resolve pre e post h
    simp [processEntries, List.filterMap_append, h]

/-- Witness for `c8_fetch_failures` at concrete environments. -/
theorem c8_witness :
    extract_m3u8_from_player_page failPageFetch 1 (("http://x").toList) = some none ∧
    scrape_daddylive_channels failListingFetch noneResolve defaultListingUrl = [] ∧
    processEntries noneResolve ([] ++ ((("a").toList), (("b").toList)) :: []) =
      processEntries noneResolve [] ++ processEntries noneResolve [] :=
  ⟨c8_fetch_failures.1 failPageFetch 0 (("http://x").toList) rfl,
   c8_fetch_failures.2.1 failListingFetch noneResolve defaultListingUrl rfl,
   c8_fetch_failures.2.2 noneResolve [] ((("a").toList), (("b").toList)) [] rfl⟩

/-- C10: every player-page address the enumerator constructs is the fixed
literal origin `https://daddylive.dad/` followed by the matched anchor's
href value, and the run's output depends on the configured listing url only
through the document the fetch oracle returns for it, never through the
url's own origin. -/
theorem c10_fixed_origin :
    (∀ (doc : List ChannelDiv) (e : List Char × List Char), e ∈ channelEntries doc →
      ∃ d, d ∈ doc ∧ ∃ a, findChannelAnchor d = some a ∧
        e.1 = channelName a ∧ e.2 = (("https://daddylive.dad/").toList) ++ a.href) ∧
    (∀ (f1 f2 : List Char → Option (List ChannelDiv))
       (resolve : List Char → Option (List Char)) (u1 u2 : List Char) (doc : List ChannelDiv),
      f1 u1 = some doc → f2 u2 = some doc →
      scrape_daddylive_channels f1 resolve u1 = scrape_daddylive_channels f2 resolve u2) := by
  constructor
  · intro doc e he
    rw [channelEntries, List.mem_filterMap] at he
    obtain ⟨d, hd, hmap⟩ := he
    cases hfa : findChannelAnchor d with
    | none => rw [hfa] at hmap; exact absurd hmap (by simp)
    | some a =>
      rw [hfa] at hmap
      simp only [Option.map_some', Option.some.injEq] at hmap
      exact ⟨d, hd, a, hfa, by rw [← hmap], by rw [← hmap]⟩
  · intro f1 f2 resolve u1 u2 doc h1 h2
    simp only [scrape_daddylive_channels, h1, h2]

/-- Witness for `c10_fixed_origin` at a concrete environment. -/
theorem c10_witness :
    (∃ d, d ∈ doc10 ∧ ∃ a, findChannelAnchor d = some a ∧
      ((("N").toList), (("https://daddylive.dad/player.php?id=1").toList)).1 = channelName a ∧
      ((("N").toList), (("https://daddylive.dad/player.php?id=1").toList)).2 =
        (("https://daddylive.dad/").toList) ++ a.href) ∧
    scrape_daddylive_channels fetch10 noneResolve (("http://other/origin").toList) =
      scrape_daddylive_channels fetch10 noneResolve defaultListingUrl :=
  ⟨c10_fixed_origin.1 doc10 ((("N").toList), (("https://daddylive.dad/player.php?id=1").toList))
      (by decide),
   c10_fixed_origin.2 fetch10 fetch10 noneResolve (("http://other/origin").toList)
      defaultListingUrl doc10 rfl rfl⟩

/-- A scheme is a prefix of anything the scheme splitter accepts it from. -/
theorem schemeSplit_cases (t sch rest : List Char) (h : schemeSplit t = some (sch, rest)) :
    sch = ("http://").toList ∨ sch = ("https://").toList := by
  unfold schemeSplit at h
  split at h
  · injection h with h'
    exact Or.inr (congrArg Prod.fst h').symm
  · split at h
    · injection h with h'
      exact Or.inl (congrArg Prod.fst h').symm
    · exact absurd h (by simp)

/-- Every successful single-position match starts with `http://` or
`https://`. -/
theorem matchAt_scheme (t m : List Char) (h : matchAt t = some m) :
    ((("http://").toList).isPrefixOf m || (("https://").toList).isPrefixOf m) = true := by
  unfold matchAt at h
  split at h
  · exact absurd h (by simp)
  next sch rest hs =>
    split at h
    · exact absurd h (by simp)
    next j hl =>
      injection h with h'
      rcases schemeSplit_cases t sch rest hs with hsch | hsch <;>
        rw [← h', hsch] <;>
        simp [List.isPrefixOf_iff_prefix, List.prefix_append]

/-- Every successful regex search result starts with `http://` or
`https://`. -/
theorem m3u8Search_scheme (s m : List Char) (h : m3u8Search s = some m) :
    ((("http://").toList).isPrefixOf m || (("https://").toList).isPrefixOf m) = true := by
  induction s with
  | nil => exact absurd h (by simp [m3u8Search])
  | cons c cs ih =>
    rw [m3u8Search] at h
    split at h
    next m' hm =>
      injection h with h'
      exact h' ▸ matchAt_scheme (c :: cs) m' hm
    next => exact ih h

/-- Every stream address the resolver ever returns starts with `http://`
or `https://`. -/
theorem extract_scheme (fetch : List Char → Option Page) (n : Nat) :
    ∀ (url m : List Char), extract_m3u8_from_player_page fetch n url = some (some m) →
    ((("http://").toList).isPrefixOf m || (("https://").toList).isPrefixOf m) = true := by
  induction n with
  | zero => intro url m h; exact absurd h (by simp [extract_m3u8_from_player_page])
  | succ n ih =>
    intro url m h
    rw [extract_m3u8_from_player_page] at h
    split at h
    · exact absurd h (by simp)
    next page hf =>
      split at h
      next m' hm =>
        injection h with h'
        injection h' with h''
        exact h'' ▸ m3u8Search_scheme page.text m' hm
      next hm =>
        split at h
        next src hh =>
          split at h
          · exact absurd h (by simp)
          · exact ih src m h
          · exact ih (resolveIframeSrc url src) m h
        next => exact absurd h (by simp)
        next => exact absurd h (by simp)

/-- C3 amended: every channel record the run emits carries a stream address
beginning with the scheme `http://` or `https://` (the non-empty-name part
of the claimed invariant does not hold, see the counterexample). -/
theorem c3_stream_scheme (fetchListing : List Char → Option (List ChannelDiv))
    (fetchPage : List Char → Option Page) (n : Nat) (url : List Char) (r : ChannelRecord)
    (h : r ∈ scrape_daddylive_channels fetchListing (resolveWithFuel fetchPage n) url) :
    ((("http://").toList).isPrefixOf r.url || (("https://").toList).isPrefixOf r.url) = true := by
  rw [scrape_daddylive_channels] at h
  split at h
  · exact absurd h (by simp)
  next doc hf =>
    split at h
    · exact absurd h (by simp)
    · rw [processEntries, List.mem_filterMap] at h
      obtain ⟨e, _, hmap⟩ := h
      cases hr : resolveWithFuel fetchPage n e.2 with
      | none => rw [hr] at hmap; exact absurd hmap (by simp)
      | some m =>
        rw [hr] at hmap
        simp only [Option.map_some', Option.some.injEq] at hmap
        rw [resolveWithFuel] at hr
        split at hr
        next o hx =>
          cases o with
          | none => exact absurd hr (by simp)
          | some m' =>
            injection hr with hr'
            rw [← hmap]
            exact hr' ▸ extract_scheme fetchPage n e.2 m' hx
        next => exact absurd hr (by simp)

/-- Witness for `c3_stream_scheme` at a concrete environment. -/
theorem c3_witness :
    ChannelRecord.mk [] (("http://s/v.m3u8").toList) ∈
      scrape_daddylive_channels c3FetchL (resolveWithFuel c3FetchP 1) defaultListingUrl ∧
    ((("http://").toList).isPrefixOf (("http://s/v.m3u8").toList) ||
      (("https://").toList).isPrefixOf (("http://s/v.m3u8").toList)) = true :=
  ⟨by decide,
   c3_stream_scheme c3FetchL c3FetchP 1 defaultListingUrl
     (ChannelRecord.mk [] (("http://s/v.m3u8").toList)) (by decide)⟩

/-- C3 counterexample: a listing whose channel tile carries an empty `h2`
heading produces a record whose name is empty — the code never checks name
non-emptiness, so the claimed "no record with an empty name" invariant
fails. -/
theorem c3_counterexample :
    scrape_daddylive_channels c3FetchL (resolveWithFuel c3FetchP 1) defaultListingUrl =
      [ChannelRecord.mk [] (("http://s/v.m3u8").toList)] := by
  decide

/-- A prefix of `xs` is also a prefix of `xs ++ ys`. -/
theorem isPrefixOf_extend (p xs ys : List Char) (h : p.isPrefixOf xs = true) :
    p.isPrefixOf (xs ++ ys) = true :=
  List.isPrefixOf_iff_prefix.mpr
    ((List.isPrefixOf_iff_prefix.mp h).trans (List.prefix_append xs ys))

/-- A prefix of `l` is a prefix of the first `p.length` elements of `l`. -/
theorem isPrefixOf_take_self (p l : List Char) (h : p.isPrefixOf l = true) :
    p.isPrefixOf (l.take p.length) = true := by
  rw [List.isPrefixOf_iff_prefix] at h ⊢
  rw [← List.prefix_iff_eq_take.mp h]

/-- `takeWhile` walks through a block that satisfies the predicate. -/
theorem takeWhile_append_of_all (p : Char → Bool) (xs ys : List Char)
    (h : ∀ c ∈ xs, p c = true) :
    (xs ++ ys).takeWhile p = xs ++ ys.takeWhile p := by
  induction xs with
  | nil => simp
  | cons a as ih =>
    simp only [List.cons_append, List.takeWhile_cons, h a (by simp), if_true]
    rw [ih (fun c hc => h c (by simp [hc]))]

/-- Any list is a Boolean prefix of itself extended by anything. -/
theorem isPrefixOf_append_self (xs ys : List Char) : xs.isPrefixOf (xs ++ ys) = true :=
  List.isPrefixOf_iff_prefix.mpr (List.prefix_append xs ys)

/-- Computation facts about the two scheme literals, with a free tail. -/
theorem https_isPrefixOf_append (x : List Char) :
    (("https://").toList).isPrefixOf ((("https://").toList) ++ x) = true :=
  isPrefixOf_append_self _ x

theorem http_isPrefixOf_append (x : List Char) :
    (("http://").toList).isPrefixOf ((("http://").toList) ++ x) = true :=
  isPrefixOf_append_self _ x

/-- `https://` never matches where `http://` is present: the fifth
characters differ. -/
theorem https_not_prefixOf_http_append (x : List Char) :
    (("https://").toList).isPrefixOf ((("http://").toList) ++ x) = false := rfl

theorem drop8_https_append (x : List Char) : ((("https://").toList) ++ x).drop 8 = x := rfl

theorem drop7_http_append (x : List Char) : ((("http://").toList) ++ x).drop 7 = x := rfl

/-- The scheme splitter on input led by the `https://` literal. -/
theorem schemeSplit_https (x : List Char) :
    schemeSplit ((("https://").toList) ++ x) = some ((("https://").toList), x) := by
  unfold schemeSplit
  rw [if_pos (https_isPrefixOf_append x), drop8_https_append]

/-- The scheme splitter on input led by the `http://` literal. -/
theorem schemeSplit_http (x : List Char) :
    schemeSplit ((("http://").toList) ++ x) = some ((("http://").toList), x) := by
  have hne : ¬ ((("https://").toList).isPrefixOf ((("http://").toList) ++ x) = true) := by
    rw [https_not_prefixOf_http_append x]
    simp
  unfold schemeSplit
  rw [if_neg hne, if_pos (http_isPrefixOf_append x), drop7_http_append]

/-- The scheme splitter splits its input. -/
theorem schemeSplit_eq (t sch rest : List Char) (h : schemeSplit t = some (sch, rest)) :
    t = sch ++ rest := by
  unfold schemeSplit at h
  split at h
  next hc =>
    injection h with h'
    obtain ⟨u, hu⟩ := List.isPrefixOf_iff_prefix.mp hc
    have h1 : sch = ("https://").toList := (congrArg Prod.fst h').symm
    have h2 : rest = t.drop 8 := (congrArg Prod.snd h').symm
    subst h1
    subst h2
    rw [← hu]
    exact congrArg _ (drop8_https_append u).symm
  next =>
    split at h
    next hc =>
      injection h with h'
      obtain ⟨u, hu⟩ := List.isPrefixOf_iff_prefix.mp hc
      have h1 : sch = ("http://").toList := (congrArg Prod.fst h').symm
      have h2 : rest = t.drop 7 := (congrArg Prod.snd h').symm
      subst h1
      subst h2
      rw [← hu]
      exact congrArg _ (drop7_http_append u).symm
    next => exact absurd h (by simp)

/-- Soundness of the last-occurrence scan: the reported index carries an
occurrence of `.m3u8`. -/
theorem lastM3u8_sound (l : List Char) (j : Nat) (h : lastM3u8 l = some j) :
    ((".m3u8").toList).isPrefixOf (l.drop j) = true := by
  induction l generalizing j with
  | nil => exact absurd h (by simp [lastM3u8])
  | cons c cs ih =>
    rw [lastM3u8] at h
    split at h
    next j' hj' =>
      injection h with h'
      rw [← h']
      exact ih j' hj'
    next hnone =>
      split at h
      next hp =>
        injection h with h'
        rw [← h']
        exact hp
      next => exact absurd h (by simp)

/-- Completeness of the last-occurrence scan: when `.m3u8` occurs at some
index, the scan reports an index. -/
theorem lastM3u8_complete (l : List Char) (q : Nat)
    (h : ((".m3u8").toList).isPrefixOf (l.drop q) = true) :
    lastM3u8 l ≠ none := by
  induction l generalizing q with
  | nil =>
    rw [List.drop_nil] at h
    exact absurd h (by simp [List.isPrefixOf])
  | cons c cs ih =>
    rw [lastM3u8]
    split
    · simp
    next hnone =>
      cases q with
      | zero =>
        rw [List.drop_zero] at h
        rw [if_pos h]
        simp
      | succ q' => exact absurd hnone (ih q' h)

/-- Soundness of one match attempt: the returned match fits the spec's
stream-address pattern and occurs at the attempted position. -/
theorem matchAt_sound (t m : List Char) (h : matchAt t = some m) :
    specStreamMatch m ∧ m.isPrefixOf t = true := by
  unfold matchAt at h
  split at h
  · exact absurd h (by simp)
  next sch rest hs =>
    split at h
    · exact absurd h (by simp)
    next j hl =>
      injection h with h'
      subst h'
      constructor
      · refine ⟨sch, (rest.takeWhile isUrlChar).take (j + 5),
          schemeSplit_cases t sch rest hs, rfl, ?_, j, ?_⟩
        · intro c hc
          exact List.mem_takeWhile_imp (List.mem_of_mem_take hc)
        · have h5 : j + 5 - j = 5 := by omega
          rw [List.drop_take, h5]
          exact isPrefixOf_take_self _ _ (lastM3u8_sound _ j hl)
      · rw [List.isPrefixOf_iff_prefix, schemeSplit_eq t sch rest hs]
        exact (List.prefix_append_right_inj sch).mpr
          ((List.take_prefix _ _).trans (List.takeWhile_prefix _))

/-- Completeness of one match attempt: at any position where a string
fitting the spec's stream-address pattern starts, the engine matches. -/
theorem matchAt_complete (t m : List Char) (hm : specStreamMatch m)
    (hp : m.isPrefixOf t = true) : matchAt t ≠ none := by
  obtain ⟨sch, body, hsch, rfl, hbody, q, hq⟩ := hm
  obtain ⟨u, hu⟩ := List.isPrefixOf_iff_prefix.mp hp
  have hss : schemeSplit t = some (sch, body ++ u) := by
    rcases hsch with h1 | h1 <;> subst h1 <;> rw [← hu, List.append_assoc]
    · exact schemeSplit_http (body ++ u)
    · exact schemeSplit_https (body ++ u)
  have hrun : ((".m3u8").toList).isPrefixOf
      (((body ++ u).takeWhile isUrlChar).drop q) = true := by
    rw [takeWhile_append_of_all isUrlChar body u hbody, List.drop_append_eq_append_drop]
    exact isPrefixOf_extend _ _ _ hq
  cases hl : lastM3u8 ((body ++ u).takeWhile isUrlChar) with
  | none => exact absurd hl (lastM3u8_complete _ q hrun)
  | some j =>
    simp only [matchAt, hss, hl]
    simp

/-- When the regex search fails there is no matching position at all. -/
theorem m3u8Search_none (s : List Char) (h : m3u8Search s = none) :
    ∀ i, matchAt (s.drop i) = none := by
  induction s with
  | nil =>
    intro i
    rw [List.drop_nil]
    rfl
  | cons c cs ih =>
    rw [m3u8Search] at h
    split at h
    next m hm => exact absurd h (by simp)
    next hm =>
      intro i
      cases i with
      | zero => exact hm
      | succ i' => exact ih h i'

/-- When the regex search succeeds, the match comes from the leftmost
position at which the engine matches at all. -/
theorem m3u8Search_some (s m : List Char) (h : m3u8Search s = some m) :
    ∃ i, matchAt (s.drop i) = some m ∧ ∀ j, j < i → matchAt (s.drop j) = none := by
  induction s with
  | nil => exact absurd h (by simp [m3u8Search])
  | cons c cs ih =>
    rw [m3u8Search] at h
    split at h
    next m' hm =>
      injection h with h'
      subst h'
      exact ⟨0, hm, fun j hj => absurd hj (Nat.not_lt_zero j)⟩
    next hm =>
      obtain ⟨i, hi, hmin⟩ := ih h
      refine ⟨i + 1, hi, ?_⟩
      intro j hj
      cases j with
      | zero => exact hm
      | succ j' => exact hmin j' (by omega)

/-- The characters of the two scheme literals all belong to the regex's
url-character class. -/
theorem scheme_chars_url (c : Char)
    (h : c ∈ (("http://").toList) ∨ c ∈ (("https://").toList)) : isUrlChar c = true := by
  rcases h with h | h <;> fin_cases h <;> decide

/-- C2: for every fetched player page whose text contains an occurrence of
the stream-address pattern, the resolver returns a match that fits the
pattern, starts at the first position of the text at which any
pattern-fitting substring starts, and contains no quote or whitespace
character (so surrounding quotes are never part of the result). -/
theorem c2_first_quoted_match (fetch : List Char → Option Page) (n : Nat)
    (url : List Char) (page : Page) (hf : fetch url = some page)
    (hex : ∃ i, specOccursAt page.text i) :
    ∃ m i, extract_m3u8_from_player_page fetch (n + 1) url = some (some m) ∧
      specStreamMatch m ∧ m.isPrefixOf (page.text.drop i) = true ∧
      (∀ j, j < i → ¬ specOccursAt page.text j) ∧
      (∀ c ∈ m, isUrlChar c = true) := by
  obtain ⟨i₀, m₀, hm₀, hp₀⟩ := hex
  cases hs : m3u8Search page.text with
  | none =>
    exact absurd (m3u8Search_none page.text hs i₀)
      (matchAt_complete (page.text.drop i₀) m₀ hm₀ hp₀)
  | some m =>
    obtain ⟨i, hi, hmin⟩ := m3u8Search_some page.text m hs
    obtain ⟨hsm, hsp⟩ := matchAt_sound (page.text.drop i) m hi
    refine ⟨m, i, ?_, hsm, hsp, ?_, ?_⟩
    · simp only [extract_m3u8_from_player_page, hf, hs]
    · intro j hj hoc
      obtain ⟨m', hm', hp'⟩ := hoc
      exact absurd (hmin j hj) (matchAt_complete (page.text.drop j) m' hm' hp')
    · obtain ⟨sch, body, hsch, hme, hbody, _⟩ := hsm
      intro c hc
      rw [hme] at hc
      rcases List.mem_append.mp hc with hcs | hcb
      · rcases hsch with h1 | h1
        · exact scheme_chars_url c (Or.inl (h1 ▸ hcs))
        · exact scheme_chars_url c (Or.inr (h1 ▸ hcs))
      · exact hbody c hcb

/-- Witness for `c2_first_quoted_match` at a concrete environment. -/
theorem c2_witness :
    w2Fetch w2Url = some w2Page ∧
    (∃ m i, extract_m3u8_from_player_page w2Fetch 1 w2Url = some (some m) ∧
      specStreamMatch m ∧ m.isPrefixOf (w2Page.text.drop i) = true ∧
      (∀ j, j < i → ¬ specOccursAt w2Page.text j) ∧
      (∀ c ∈ m, isUrlChar c = true)) :=
  ⟨rfl, c2_first_quoted_match w2Fetch 0 w2Url w2Page rfl
    ⟨3, ("https://a.m3u8").toList,
      ⟨("https://").toList, ("a.m3u8").toList, Or.inr rfl, by decide,
        by decide, 1, by decide⟩,
      by decide⟩⟩
